import Mathlib

/-!
Verification of the client-resolution and response-generation pipeline of the
meeting-scheduling chatbot (final iteration, `app3.py`).

External effects are embedded as explicit parameters:
* the document-store query (`collection.find()`) becomes an
  `Except String (List ClientRecord)` argument (`Except.error` models a raised
  data-store exception);
* the string-similarity library call (`fuzz.ratio`) becomes a
  `String → String → Nat` argument, with `fuzzRatioImpl` as the concrete model
  of the library function;
* the entity-recognition model (`nlp(text)`) becomes a
  `String → Except Unit (List Entity)` argument (`Except.error` models a raised
  exception inside the NLP call);
* the completion endpoint (`requests.post` to the chat API) becomes an oracle
  `String → List Message → Nat → AttemptResult` giving, per model, message list
  and attempt index, either a 200-response content or a failure (timeout,
  connection error, non-200 status, malformed body).
-/

namespace MeetingBot

/-- A stored client record, `{name, email}` as kept in the `clients` collection. -/
structure ClientRecord where
  name : String
  email : String
deriving DecidableEq

/-- The value returned by `ClientManager.check_client`:
the Python dict with keys `exists` (bool) and `email` (str or None).
The key `exists` is a reserved word here, hence the primed field name. -/
structure LookupResult where
  exists' : Bool
  email : Option String
deriving DecidableEq

/-- Python's `max` over a nonempty sequence with a `key` function: scans left to
right, replacing the current best only on a strictly greater key, so the first
maximal element is returned. `pyMax f x xs` is `max` over the sequence `x :: xs`. -/
def pyMax (f : α → Nat) (x : α) : List α → α
  | [] => x
  | y :: ys => if f x < f y then pyMax f y ys else pyMax f x ys

/-- Length of a longest common subsequence of two character lists. -/
def lcs (l1 l2 : List Char) : Nat :=
  match l1, l2 with
  | [], _ => 0
  | _ :: _, [] => 0
  | a :: as, b :: bs =>
    if a = b then lcs as bs + 1
    else max (lcs (a :: as) bs) (lcs as (b :: bs))
termination_by l1.length + l2.length

/-- Round-half-even (Python 3 `round`) of the rational `num / den`, on naturals. -/
def roundHalfEven (num den : Nat) : Nat :=
  let q := num / den
  let r := num % den
  if 2 * r < den then q
  else if den < 2 * r then q + 1
  else if q % 2 = 0 then q else q + 1

/-- Model of fuzzywuzzy's `fuzz.ratio`. The library's `check_for_equal`
decorator returns 100 for equal inputs (in particular for two empty strings);
otherwise, with the python-Levenshtein backend, the score is
`int(round(100 * (lensum - dist) / lensum))` where `dist` is the edit distance
with substitution cost 2, which equals `lensum - 2 * LCS`; so the score is
`round(200 * LCS / lensum)` with Python 3's round-half-even. -/
def fuzzRatioImpl (s1 s2 : String) : Nat :=
  if s1 = s2 then 100
  else roundHalfEven (200 * lcs s1.data s2.data) (s1.length + s2.length)

/-- Python's `str.lower()`, character by character (modelled over the ASCII
range, which covers the inputs of interest here). -/
def pyLower (s : String) : String := ⟨s.data.map Char.toLower⟩

/-- `ClientManager.check_client` (app3.py lines 47-73). The similarity scorer
`fuzz` stands for the library call `fuzz.ratio`; `findResult` is the outcome of
`list(self.collection.find())`, with `Except.error` modelling a raised
data-store exception, which the `except` clause converts (after logging) to
a dict with `exists` False and `email` None. The emptiness test
`if not client_name` is true exactly for the empty string. -/
def check_client (fuzz : String → String → Nat)
    (findResult : Except String (List ClientRecord))
    (client_name : String) : LookupResult :=
  if client_name = "" then ⟨false, none⟩
  else
    match findResult with
    | .error _ => ⟨false, none⟩
    | .ok [] => ⟨false, none⟩
    | .ok (c :: cs) =>
      let score := fun cl : ClientRecord => fuzz (pyLower cl.name) (pyLower client_name)
      let best := pyMax score c cs
      if 90 < score best then ⟨true, some best.email⟩ else ⟨false, none⟩

theorem pyMax_mem (f : α → Nat) (x : α) (xs : List α) : pyMax f x xs ∈ x :: xs := by
  induction xs generalizing x with
  | nil => simp [pyMax]
  | cons y ys ih =>
    rw [pyMax]
    split
    · exact List.mem_cons_of_mem x (ih y)
    · rcases List.mem_cons.mp (ih x) with h | h
      · rw [h]; exact List.mem_cons_self _ _
      · exact List.mem_cons_of_mem _ (List.mem_cons_of_mem _ h)

theorem le_pyMax (f : α → Nat) (x : α) (xs : List α) :
    ∀ y ∈ x :: xs, f y ≤ f (pyMax f x xs) := by
  induction xs generalizing x with
  | nil =>
    intro y hy
    rw [List.mem_singleton] at hy
    rw [hy, pyMax]
  | cons z zs ih =>
    intro y hy
    rw [pyMax]
    split
    · rename_i hxz
      rcases List.mem_cons.mp hy with h | h
      · rw [h]
        exact le_of_lt (lt_of_lt_of_le hxz (ih z z (List.mem_cons_self _ _)))
      · exact ih z y h
    · rename_i hxz
      rcases List.mem_cons.mp hy with h | h
      · rw [h]; exact ih x x (List.mem_cons_self _ _)
      · rcases List.mem_cons.mp h with h2 | h2
        · rw [h2]
          exact le_trans (Nat.le_of_not_lt hxz) (ih x x (List.mem_cons_self _ _))
        · exact ih x y (List.mem_cons_of_mem _ h2)

theorem pyMax_first (f : α → Nat) (x : α) (xs : List α) :
    ∃ l₁ l₂, x :: xs = l₁ ++ pyMax f x xs :: l₂ ∧ ∀ y ∈ l₁, f y < f (pyMax f x xs) := by
  induction xs generalizing x with
  | nil => exact ⟨[], [], by rw [pyMax]; rfl, by simp⟩
  | cons z zs ih =>
    rw [pyMax]
    split
    · rename_i hxz
      obtain ⟨l₁, l₂, heq, hlt⟩ := ih z
      refine ⟨x :: l₁, l₂, by rw [List.cons_append, ← heq], ?_⟩
      intro y hy
      rcases List.mem_cons.mp hy with h | h
      · rw [h]
        exact lt_of_lt_of_le hxz (le_pyMax f z zs z (List.mem_cons_self _ _))
      · exact hlt y h
    · rename_i hxz
      obtain ⟨l₁, l₂, heq, hlt⟩ := ih x
      cases l₁ with
      | nil =>
        rw [List.nil_append] at heq
        have h1 : x = pyMax f x zs := (List.cons.injEq _ _ _ _ ▸ heq).1
        refine ⟨[], z :: zs, ?_, by simp⟩
        rw [List.nil_append, ← h1]
      | cons a l₁ =>
        rw [List.cons_append] at heq
        have h1 : a = x := ((List.cons.injEq _ _ _ _ ▸ heq).1).symm
        have h2 : zs = l₁ ++ pyMax f x zs :: l₂ := (List.cons.injEq _ _ _ _ ▸ heq).2
        have hxlt : f x < f (pyMax f x zs) := h1 ▸ hlt a (List.mem_cons_self _ _)
        refine ⟨x :: z :: l₁, l₂, by rw [List.cons_append, List.cons_append, ← h2], ?_⟩
        intro y hy
        rcases List.mem_cons.mp hy with h | h
        · rw [h]; exact hxlt
        · rcases List.mem_cons.mp h with h3 | h3
          · rw [h3]; exact lt_of_le_of_lt (Nat.le_of_not_lt hxz) hxlt
          · exact hlt y (h1 ▸ List.mem_cons_of_mem a h3)

/-- Unfolding of `check_client` on a non-empty name and a non-empty store. -/
theorem check_client_cons (fuzz : String → String → Nat) (c : ClientRecord)
    (cs : List ClientRecord) (client_name : String) (h : client_name ≠ "") :
    check_client fuzz (Except.ok (c :: cs)) client_name =
      if 90 < fuzz (pyLower (pyMax (fun cl : ClientRecord =>
            fuzz (pyLower cl.name) (pyLower client_name)) c cs).name) (pyLower client_name)
      then ⟨true, some (pyMax (fun cl : ClientRecord =>
            fuzz (pyLower cl.name) (pyLower client_name)) c cs).email⟩
      else ⟨false, none⟩ := by
  simp only [check_client, if_neg h]

/-- C1 (counterexample). The claim quantifies over every candidate name and
every store contents, but for the empty candidate name `check_client` returns
early with `exists=False` (app3.py line 53) even when a stored record scores
above 90: a record whose name is the empty string scores 100 against the empty
candidate (`fuzz.ratio` returns 100 on equal inputs), yet the lookup reports
`exists=False`. -/
theorem check_client_exists_iff_counterexample :
    ¬ (((check_client fuzzRatioImpl
          (Except.ok [ClientRecord.mk "" "a@b.com"]) "").exists' = true) ↔
        ∃ c ∈ [ClientRecord.mk "" "a@b.com"],
          90 < fuzzRatioImpl (pyLower c.name) (pyLower "")) := by
  decide

/-- C1 (amended: restricted to a non-empty candidate name, matching the
documented precondition). For every non-empty candidate name and every store
contents, `check_client` reports `exists=true` iff some stored record's
case-insensitive similarity score against the candidate exceeds 90, and in
that case the returned email is the email field of a record scoring above 90. -/
theorem check_client_exists_iff (fuzz : String → String → Nat)
    (clients : List ClientRecord) (client_name : String) (h : client_name ≠ "") :
    ((check_client fuzz (Except.ok clients) client_name).exists' = true ↔
      ∃ c ∈ clients, 90 < fuzz (pyLower c.name) (pyLower client_name))
    ∧ ((check_client fuzz (Except.ok clients) client_name).exists' = true →
      ∃ c ∈ clients, 90 < fuzz (pyLower c.name) (pyLower client_name) ∧
        (check_client fuzz (Except.ok clients) client_name).email = some c.email) := by
  rcases clients with _ | ⟨c, cs⟩
  · have hval : check_client fuzz (Except.ok ([] : List ClientRecord)) client_name
        = ⟨false, none⟩ := by
      simp only [check_client, if_neg h]
    rw [hval]
    constructor
    · simp
    · simp
  · rw [check_client_cons fuzz c cs client_name h]
    set s := fun cl : ClientRecord => fuzz (pyLower cl.name) (pyLower client_name) with hs
    by_cases hb : 90 < s (pyMax s c cs)
    · rw [if_pos hb]
      constructor
      · simp only [true_iff]
        exact ⟨pyMax s c cs, pyMax_mem s c cs, hb⟩
      · intro _
        exact ⟨pyMax s c cs, pyMax_mem s c cs, hb, rfl⟩
    · rw [if_neg hb]
      constructor
      · simp only [Bool.false_eq_true, false_iff]
        rintro ⟨c', hc', hgt⟩
        exact hb (lt_of_lt_of_le hgt (le_pyMax s c cs c' hc'))
      · intro hx
        exact absurd hx (by simp)

/-- C1 (witness). The amended theorem instantiated at the scenario of the
specification: the store holds the record (John Doe, john@x.com) and the
candidate is "John Doe". -/
theorem check_client_exists_iff_witness :
    ((check_client fuzzRatioImpl
        (Except.ok [ClientRecord.mk "John Doe" "john@x.com"]) "John Doe").exists' = true ↔
      ∃ c ∈ [ClientRecord.mk "John Doe" "john@x.com"],
        90 < fuzzRatioImpl (pyLower c.name) (pyLower "John Doe"))
    ∧ ((check_client fuzzRatioImpl
        (Except.ok [ClientRecord.mk "John Doe" "john@x.com"]) "John Doe").exists' = true →
      ∃ c ∈ [ClientRecord.mk "John Doe" "john@x.com"],
        90 < fuzzRatioImpl (pyLower c.name) (pyLower "John Doe") ∧
        (check_client fuzzRatioImpl
          (Except.ok [ClientRecord.mk "John Doe" "john@x.com"]) "John Doe").email
          = some c.email) :=
  check_client_exists_iff fuzzRatioImpl [ClientRecord.mk "John Doe" "john@x.com"]
    "John Doe" (by decide)

/-- C5 (counterexample). As with C1, the claim quantifies over every candidate
name, but the empty candidate short-circuits: with the store holding a record
whose name is empty, the maximum score is 100 (above the threshold 90), yet
`check_client` returns `exists=False` rather than that record's email. -/
theorem check_client_best_match_counterexample :
    90 < fuzzRatioImpl (pyLower "") (pyLower "")
    ∧ check_client fuzzRatioImpl (Except.ok [ClientRecord.mk "" "x@y.example"]) ""
        ≠ ⟨true, some "x@y.example"⟩ := by
  decide

/-- C5 (amended: restricted to a non-empty candidate name, matching the
documented precondition). For every non-empty candidate name and store,
`check_client` selects the record with the maximum case-insensitive similarity
score, ties broken in favour of the first-encountered record, and returns that
record's email when the maximum exceeds 90; when no record exceeds 90 it
returns `exists=False` with no email. -/
theorem check_client_best_match (fuzz : String → String → Nat)
    (clients : List ClientRecord) (client_name : String) (h : client_name ≠ "") :
    ((∃ c ∈ clients, 90 < fuzz (pyLower c.name) (pyLower client_name)) →
      ∃ l₁ b l₂, clients = l₁ ++ b :: l₂ ∧
        (∀ c ∈ clients, fuzz (pyLower c.name) (pyLower client_name)
          ≤ fuzz (pyLower b.name) (pyLower client_name)) ∧
        (∀ c ∈ l₁, fuzz (pyLower c.name) (pyLower client_name)
          < fuzz (pyLower b.name) (pyLower client_name)) ∧
        check_client fuzz (Except.ok clients) client_name = ⟨true, some b.email⟩)
    ∧ ((∀ c ∈ clients, fuzz (pyLower c.name) (pyLower client_name) ≤ 90) →
      check_client fuzz (Except.ok clients) client_name = ⟨false, none⟩) := by
  rcases clients with _ | ⟨c, cs⟩
  · constructor
    · rintro ⟨c', hc', _⟩
      simp at hc'
    · intro _
      simp only [check_client, if_neg h]
  · rw [check_client_cons fuzz c cs client_name h]
    set s := fun cl : ClientRecord => fuzz (pyLower cl.name) (pyLower client_name) with hs
    constructor
    · rintro ⟨c', hc', hgt⟩
      have hb90 : 90 < s (pyMax s c cs) :=
        lt_of_lt_of_le hgt (le_pyMax s c cs c' hc')
      obtain ⟨l₁, l₂, heq, hlt⟩ := pyMax_first s c cs
      rw [if_pos hb90]
      exact ⟨l₁, pyMax s c cs, l₂, heq, le_pyMax s c cs, hlt, rfl⟩
    · intro hle
      have hble : s (pyMax s c cs) ≤ 90 := hle _ (pyMax_mem s c cs)
      rw [if_neg (Nat.not_lt.mpr hble)]

/-- C5 (witness). The amended theorem instantiated at a two-record store where
the second record scores higher. -/
theorem check_client_best_match_witness :
    ((∃ c ∈ [ClientRecord.mk "Alice Smith" "alice@x.com",
              ClientRecord.mk "John Doe" "john@x.com"],
        90 < fuzzRatioImpl (pyLower c.name) (pyLower "John Doe")) →
      ∃ l₁ b l₂, [ClientRecord.mk "Alice Smith" "alice@x.com",
                  ClientRecord.mk "John Doe" "john@x.com"] = l₁ ++ b :: l₂ ∧
        (∀ c ∈ [ClientRecord.mk "Alice Smith" "alice@x.com",
                ClientRecord.mk "John Doe" "john@x.com"],
          fuzzRatioImpl (pyLower c.name) (pyLower "John Doe")
            ≤ fuzzRatioImpl (pyLower b.name) (pyLower "John Doe")) ∧
        (∀ c ∈ l₁,
          fuzzRatioImpl (pyLower c.name) (pyLower "John Doe")
            < fuzzRatioImpl (pyLower b.name) (pyLower "John Doe")) ∧
        check_client fuzzRatioImpl
          (Except.ok [ClientRecord.mk "Alice Smith" "alice@x.com",
                      ClientRecord.mk "John Doe" "john@x.com"]) "John Doe"
          = ⟨true, some b.email⟩)
    ∧ ((∀ c ∈ [ClientRecord.mk "Alice Smith" "alice@x.com",
               ClientRecord.mk "John Doe" "john@x.com"],
        fuzzRatioImpl (pyLower c.name) (pyLower "John Doe") ≤ 90) →
      check_client fuzzRatioImpl
        (Except.ok [ClientRecord.mk "Alice Smith" "alice@x.com",
                    ClientRecord.mk "John Doe" "john@x.com"]) "John Doe"
        = ⟨false, none⟩) :=
  check_client_best_match fuzzRatioImpl
    [ClientRecord.mk "Alice Smith" "alice@x.com", ClientRecord.mk "John Doe" "john@x.com"]
    "John Doe" (by decide)

/-- C6. Whenever the data-store query raises (modelled by `Except.error`),
`check_client` catches the error and returns `exists=False` with no email, for
every candidate name; the error never propagates (the embedding of the
`except` branch is a total function returning this value; the logging side
effect is outside the pure embedding). -/
theorem check_client_error_path (fuzz : String → String → Nat) (e : String)
    (client_name : String) :
    check_client fuzz (Except.error e) client_name = ⟨false, none⟩ := by
  unfold check_client
  split <;> rfl

/-- C8. For the empty candidate name `check_client` returns `exists=False`
immediately; the result is the same for every store outcome `findResult`
(a record list or a raised error) and every similarity scorer `fuzz`, which is
exactly the sense in which no store scan and no similarity computation can
influence it. -/
theorem check_client_empty_name (fuzz : String → String → Nat)
    (findResult : Except String (List ClientRecord)) :
    check_client fuzz findResult "" = ⟨false, none⟩ := rfl

/-- C9. Every value `check_client` returns, on every path (empty name, empty
store, error, below-threshold, above-threshold), carries an email exactly when
`exists` is true: `email.isSome` coincides with the `exists` flag, so
`exists=False` always comes with an absent email. -/
theorem check_client_email_invariant (fuzz : String → String → Nat)
    (findResult : Except String (List ClientRecord)) (client_name : String) :
    (check_client fuzz findResult client_name).email.isSome
      = (check_client fuzz findResult client_name).exists' := by
  unfold check_client
  split
  · rfl
  · rcases findResult with e | cl
    · rfl
    · rcases cl with _ | ⟨c, cs⟩
      · rfl
      · dsimp only
        split <;> rfl

/-- One chat message, `{"role": ..., "content": ...}`. -/
structure Message where
  role : String
  content : String
deriving DecidableEq

/-- Outcome of one `requests.post` to the chat endpoint for a given model,
message list and attempt index: either a 200 response whose body carries a
content string, or a failure (timeout, connection error, non-200 status, or a
body from which the content cannot be read — all of which the code treats
alike by falling through to the next attempt). -/
inductive AttemptResult where
  | success (content : String)
  | failure
deriving DecidableEq

/-- Python's str() conversion as applied by an f-string to the email value:
`None` prints as "None". -/
def pyStr : Option String → String
  | some s => s
  | none => "None"

/-- The system instruction built at the top of `OllamaClient.generate_response`
(app3.py lines 132-136). On the `exists` branch the Python concatenates the
email with `+`; if the email were `None` that line would raise a TypeError,
but `check_client` never produces `exists=True` with a `None` email (theorem
`check_client_email_invariant`), so the embedding simply substitutes the
string carried by the option. -/
def system_prompt (client_info : LookupResult) : String :=
  "You are a helpful meeting scheduling assistant. " ++
  (if client_info.exists' then
    "The person mentioned is a registered client with email: "
      ++ (client_info.email.getD "")
  else
    "The person mentioned is not found in our client database.") ++
  " " ++
  "Please provide a professional and courteous response regarding their meeting request."

/-- The message list sent with every completion attempt (app3.py lines 138-141). -/
def build_messages (prompt : String) (client_info : LookupResult) : List Message :=
  [⟨"system", system_prompt client_info⟩, ⟨"user", prompt⟩]

/-- The preference-ordered model list (app3.py line 144). -/
def models_to_try : List String := ["gemma:2b", "llama2", "mistral"]

/-- `OllamaClient.generate_fallback_response` (app3.py lines 179-192). -/
def generate_fallback_response (client_info : LookupResult) : String :=
  if client_info.exists' then
    "I see that you\x27re a registered client with email: "
      ++ pyStr client_info.email ++ ". "
      ++ "I apologize, but I\x27m currently experiencing some technical difficulties. "
      ++ "Please try again later or contact our support team directly for immediate assistance."
  else
    "I notice you\x27re not in our client database. "
      ++ "While I\x27m experiencing some technical difficulties, "
      ++ "you can register as a new client through our website or contact our support team for assistance."

/-- The inner retry loop of `generate_response` (app3.py lines 151-174):
`attemptLoop net model msgs k i` runs up to `k` further attempts starting at
attempt index `i`, stopping at the first 200 response. The second component is
the instrumentation: the list of (model, attempt index) calls actually issued,
in order. The inter-retry sleep has no observable effect in the embedding. -/
def attemptLoop (net : String → List Message → Nat → AttemptResult)
    (model : String) (msgs : List Message) :
    Nat → Nat → Option String × List (String × Nat)
  | 0, _ => (none, [])
  | k + 1, i =>
    match net model msgs i with
    | .success content => (some content, [(model, i)])
    | .failure =>
      let r := attemptLoop net model msgs k (i + 1)
      (r.1, (model, i) :: r.2)

/-- The outer model loop of `generate_response` (app3.py lines 147-174): each
model in the preference list is skipped when absent from the available set,
otherwise tried with a fresh budget of `max_retries = 3` attempts; the first
200 response is returned at once. The second component accumulates the
(model, attempt) call log. -/
def modelLoop (net : String → List Message → Nat → AttemptResult)
    (msgs : List Message) (available : List String) :
    List String → Option String × List (String × Nat)
  | [] => (none, [])
  | m :: ms =>
    if m ∈ available then
      match attemptLoop net m msgs 3 0 with
      | (some c, log) => (some c, log)
      | (none, log) =>
        let r := modelLoop net msgs available ms
        (r.1, log ++ r.2)
    else modelLoop net msgs available ms

/-- `OllamaClient.generate_response` (app3.py lines 126-177). `net` is the
completion-endpoint oracle; `available_models` is the cached list obtained at
startup (`set(self.available_models)` only changes membership testing, not
membership itself). The first component is the returned string; the second is
the instrumentation log of (model, attempt index) completion calls issued. -/
def generate_response (net : String → List Message → Nat → AttemptResult)
    (available_models : List String) (prompt : String)
    (client_info : LookupResult) : String × List (String × Nat) :=
  let msgs := build_messages prompt client_info
  match modelLoop net msgs available_models models_to_try with
  | (some c, log) => (c, log)
  | (none, log) => (generate_fallback_response client_info, log)

/-- Number of completion calls issued for a given model, read off the
instrumentation log. -/
def attempt_count (log : List (String × Nat)) (m : String) : Nat :=
  (log.filter (fun p => decide (p.1 = m))).length

theorem string_append_ne_empty (a b : String) (h : a ≠ "") : a ++ b ≠ "" := by
  intro hab
  apply h
  rcases a with ⟨data⟩
  cases data with
  | nil => rfl
  | cons hd tl =>
    have hl := congrArg String.length hab
    rw [String.length_append, String.length_mk, String.length_empty,
      List.length_cons] at hl
    omega

theorem attemptLoop_allfail_gen (net : String → List Message → Nat → AttemptResult)
    (m : String) (msgs : List Message) (h : ∀ a, net m msgs a = .failure) :
    ∀ k i, attemptLoop net m msgs k i
      = (none, (List.range' i k).map fun a => (m, a)) := by
  intro k
  induction k with
  | zero => intro i; rfl
  | succ k ih =>
    intro i
    rw [List.range'_succ]
    simp only [attemptLoop, h i, ih (i + 1), List.map_cons]

theorem attemptLoop_allfail (net : String → List Message → Nat → AttemptResult)
    (m : String) (msgs : List Message) (h : ∀ a, net m msgs a = .failure) :
    attemptLoop net m msgs 3 0 = (none, [(m, 0), (m, 1), (m, 2)]) := by
  rw [attemptLoop_allfail_gen net m msgs h 3 0]
  rfl

theorem modelLoop_allfail (net : String → List Message → Nat → AttemptResult)
    (msgs : List Message) (available : List String)
    (h : ∀ m a, net m msgs a = .failure) :
    ∀ ms, (modelLoop net msgs available ms).1 = none := by
  intro ms
  induction ms with
  | nil => rfl
  | cons m ms ih =>
    rw [modelLoop]
    split
    · rw [attemptLoop_allfail net m msgs (h m)]
      dsimp only
      exact ih
    · exact ih

theorem modelLoop_allfail_count (net : String → List Message → Nat → AttemptResult)
    (msgs : List Message) (available : List String)
    (h : ∀ m a, net m msgs a = .failure) (m : String) :
    ∀ ms, ms.Nodup →
      attempt_count (modelLoop net msgs available ms).2 m
        = if m ∈ ms ∧ m ∈ available then 3 else 0 := by
  intro ms
  induction ms with
  | nil =>
    intro _
    simp [modelLoop, attempt_count]
  | cons m' ms ih =>
    intro hnd
    obtain ⟨hm'notin, hndms⟩ := List.nodup_cons.mp hnd
    have hrec := ih hndms
    rw [modelLoop]
    split
    · rename_i hm'av
      rw [attemptLoop_allfail net m' msgs (h m')]
      dsimp only
      rw [attempt_count, List.filter_append, List.length_append]
      rw [attempt_count] at hrec
      rw [hrec]
      by_cases hmm : m = m'
      · subst hmm
        simp only [List.mem_cons, true_or, true_and]
        rw [if_pos hm'av, if_neg (by exact fun hc => hm'notin hc.1)]
        simp [List.filter]
      · have hne : (decide (m' = m)) = false := decide_eq_false fun hc => hmm hc.symm
        have hfilter :
            List.filter (fun p : String × Nat => decide (p.1 = m))
              [(m', 0), (m', 1), (m', 2)] = [] := by
          simp only [List.filter_cons, hne, if_neg Bool.false_ne_true, List.filter_nil]
        rw [hfilter]
        simp only [List.length_nil, Nat.zero_add, List.mem_cons]
        have : (m = m' ∨ m ∈ ms) ∧ m ∈ available ↔ m ∈ ms ∧ m ∈ available := by
          constructor
          · rintro ⟨hor, hav⟩
            rcases hor with hc | hc
            · exact absurd hc hmm
            · exact ⟨hc, hav⟩
          · rintro ⟨hms, hav⟩
            exact ⟨Or.inr hms, hav⟩
        rw [if_congr this rfl rfl]
    · rename_i hm'av
      rw [hrec]
      by_cases hmm : m = m'
      · subst hmm
        rw [if_neg (fun hc => hm'notin hc.1), if_neg (fun hc => hm'av hc.2)]
      · have : m ∈ m' :: ms ∧ m ∈ available ↔ m ∈ ms ∧ m ∈ available := by
          constructor
          · rintro ⟨hor, hav⟩
            rcases List.mem_cons.mp hor with hc | hc
            · exact absurd hc hmm
            · exact ⟨hc, hav⟩
          · rintro ⟨hms, hav⟩
            exact ⟨List.mem_cons_of_mem _ hms, hav⟩
        rw [if_congr this.symm rfl rfl]

/-- Under an always-failing endpoint, `generate_response` returns the fallback
text and its log is the model loop's log. -/
theorem generate_response_allfail (net : String → List Message → Nat → AttemptResult)
    (available : List String) (prompt : String) (c : LookupResult)
    (h : ∀ m a, net m (build_messages prompt c) a = .failure) :
    generate_response net available prompt c
      = (generate_fallback_response c,
         (modelLoop net (build_messages prompt c) available models_to_try).2) := by
  have h1 := modelLoop_allfail net (build_messages prompt c) available h models_to_try
  simp only [generate_response]
  rcases hml : modelLoop net (build_messages prompt c) available models_to_try with ⟨o, log⟩
  rw [hml] at h1
  dsimp at h1
  subst h1
  rfl

/-- C2 (counterexample). The claim asserts a non-empty return for every prompt
and lookup result, but the code returns a 200 response's content verbatim
(app3.py line 166): when the endpoint answers with an empty content string,
`generate_response` returns the empty string. -/
theorem generate_response_nonempty_counterexample :
    (generate_response (fun _ _ _ => AttemptResult.success "") ["gemma:2b"]
      "Schedule a meeting with John Doe" ⟨false, none⟩).1 = "" := by
  rfl

set_option maxRecDepth 8192 in
/-- C2 (amended: the unconditional non-emptiness is narrowed to the fallback
path, since a successful completion's content is returned verbatim and may be
empty). Whenever every model/attempt completion call fails,
`generate_response` returns the deterministic fallback string, which is
non-empty, contains the client's email verbatim when `exists` is true, and
invites registration when `exists` is false. -/
theorem generate_response_fallback_guarantee
    (net : String → List Message → Nat → AttemptResult)
    (available : List String) (prompt : String) (c : LookupResult)
    (h : ∀ m a, net m (build_messages prompt c) a = .failure) :
    (generate_response net available prompt c).1 = generate_fallback_response c
    ∧ generate_fallback_response c ≠ ""
    ∧ (c.exists' = true → ∀ e, c.email = some e →
        ∃ p q, generate_fallback_response c = p ++ (e ++ q))
    ∧ (c.exists' = false →
        ∃ p q, generate_fallback_response c
          = p ++ ("you can register as a new client" ++ q)) := by
  refine ⟨?_, ?_, ?_, ?_⟩
  · rw [generate_response_allfail net available prompt c h]
  · rcases c with ⟨ex, em⟩
    cases ex
    · have e : generate_fallback_response ⟨false, em⟩
          = "I notice you\x27re not in our client database. "
            ++ "While I\x27m experiencing some technical difficulties, "
            ++ "you can register as a new client through our website or contact our support team for assistance." :=
        rfl
      rw [e]
      decide
    · have e : generate_fallback_response ⟨true, em⟩
          = "I see that you\x27re a registered client with email: " ++ pyStr em ++ ". "
            ++ "I apologize, but I\x27m currently experiencing some technical difficulties. "
            ++ "Please try again later or contact our support team directly for immediate assistance." :=
        rfl
      rw [e]
      exact string_append_ne_empty _ _ (string_append_ne_empty _ _
        (string_append_ne_empty _ _ (string_append_ne_empty _ _ (by decide))))
  · intro hex e he
    rcases c with ⟨ex, em⟩
    dsimp only at hex he
    subst hex
    subst he
    refine ⟨"I see that you\x27re a registered client with email: ",
      ". " ++ ("I apologize, but I\x27m currently experiencing some technical difficulties. "
        ++ "Please try again later or contact our support team directly for immediate assistance."),
      ?_⟩
    have e1 : generate_fallback_response ⟨true, some e⟩
        = "I see that you\x27re a registered client with email: " ++ e ++ ". "
          ++ "I apologize, but I\x27m currently experiencing some technical difficulties. "
          ++ "Please try again later or contact our support team directly for immediate assistance." :=
      rfl
    rw [e1]
    simp [String.append_assoc]
  · intro hex
    rcases c with ⟨ex, em⟩
    dsimp only at hex
    subst hex
    refine ⟨"I notice you\x27re not in our client database. "
        ++ "While I\x27m experiencing some technical difficulties, ",
      " through our website or contact our support team for assistance.", ?_⟩
    have e1 : generate_fallback_response ⟨false, em⟩
        = "I notice you\x27re not in our client database. "
          ++ "While I\x27m experiencing some technical difficulties, "
          ++ "you can register as a new client through our website or contact our support team for assistance." :=
      rfl
    rw [e1]
    decide

/-- C2 (witness). The amended theorem instantiated at an always-failing
endpoint and a registered client. -/
theorem generate_response_fallback_guarantee_witness :
    (generate_response (fun _ _ _ => AttemptResult.failure) ["gemma:2b"]
        "Schedule a meeting with John Doe tomorrow" ⟨true, some "john@x.com"⟩).1
      = generate_fallback_response ⟨true, some "john@x.com"⟩
    ∧ generate_fallback_response ⟨true, some "john@x.com"⟩ ≠ ""
    ∧ ((⟨true, some "john@x.com"⟩ : LookupResult).exists' = true →
        ∀ e, (⟨true, some "john@x.com"⟩ : LookupResult).email = some e →
        ∃ p q, generate_fallback_response ⟨true, some "john@x.com"⟩ = p ++ (e ++ q))
    ∧ ((⟨true, some "john@x.com"⟩ : LookupResult).exists' = false →
        ∃ p q, generate_fallback_response ⟨true, some "john@x.com"⟩
          = p ++ ("you can register as a new client" ++ q)) :=
  generate_response_fallback_guarantee (fun _ _ _ => AttemptResult.failure) ["gemma:2b"]
    "Schedule a meeting with John Doe tomorrow" ⟨true, some "john@x.com"⟩
    (fun _ _ => rfl)

/-- C3. When every completion call fails, every model of the preference list
that is in the available set receives exactly 3 attempts (the full
`max_retries` budget) before the loop moves on, and every model absent from
the available set — or not in the preference list — receives zero attempts. -/
theorem generate_response_retry_budget
    (net : String → List Message → Nat → AttemptResult)
    (available : List String) (prompt : String) (c : LookupResult)
    (h : ∀ m a, net m (build_messages prompt c) a = .failure) (m : String) :
    attempt_count (generate_response net available prompt c).2 m
      = if m ∈ models_to_try ∧ m ∈ available then 3 else 0 := by
  rw [generate_response_allfail net available prompt c h]
  exact modelLoop_allfail_count net (build_messages prompt c) available h m
    models_to_try (by decide)

/-- C3 (witness). With only "llama2" available and an always-failing endpoint,
"llama2" receives exactly 3 attempts. -/
theorem generate_response_retry_budget_witness :
    attempt_count (generate_response (fun _ _ _ => AttemptResult.failure) ["llama2"]
        "Schedule a meeting with John Doe" ⟨false, none⟩).2 "llama2"
      = if "llama2" ∈ models_to_try ∧ "llama2" ∈ ["llama2"] then 3 else 0 :=
  generate_response_retry_budget (fun _ _ _ => AttemptResult.failure) ["llama2"]
    "Schedule a meeting with John Doe" ⟨false, none⟩ (fun _ _ => rfl) "llama2"

/-- C10. When no model of the preference list belongs to the cached available
set (in particular when that set is empty), `generate_response` issues zero
completion calls and returns the deterministic fallback for the given lookup
result. -/
theorem generate_response_no_available_models
    (net : String → List Message → Nat → AttemptResult)
    (available : List String) (prompt : String) (c : LookupResult)
    (h : ∀ m, m ∈ models_to_try → m ∉ available) :
    generate_response net available prompt c = (generate_fallback_response c, []) := by
  have h1 : "gemma:2b" ∉ available := h _ (by simp [models_to_try])
  have h2 : "llama2" ∉ available := h _ (by simp [models_to_try])
  have h3 : "mistral" ∉ available := h _ (by simp [models_to_try])
  simp [generate_response, models_to_try, modelLoop, h1, h2, h3]

/-- C10 (witness). With an empty available set, the result is the fallback
and the call log is empty. -/
theorem generate_response_no_available_models_witness :
    generate_response (fun _ _ _ => AttemptResult.failure) []
        "Schedule something tomorrow" ⟨false, none⟩
      = (generate_fallback_response ⟨false, none⟩, []) :=
  generate_response_no_available_models (fun _ _ _ => AttemptResult.failure) []
    "Schedule something tomorrow" ⟨false, none⟩ (fun m _ => List.not_mem_nil m)

/-- One entity detected by the NLP model: a label (e.g. "PERSON") and the
surface text of the span. -/
structure Entity where
  label : String
  text : String
deriving DecidableEq

/-- Python's regex class `\s` (modelled over its ASCII range:
space, tab, newline, carriage return, vertical tab, form feed). -/
def isPySpace (c : Char) : Bool :=
  decide (c = ' ' ∨ c = Char.ofNat 9 ∨ c = Char.ofNat 10 ∨ c = Char.ofNat 13
    ∨ c = Char.ofNat 11 ∨ c = Char.ofNat 12)

/-- One character of the allow-list character class of the validation pattern
`[a-zA-Z\s'-]` (app3.py line 93): ASCII letters, whitespace, apostrophe
(codepoint 39), hyphen. -/
def allowChar (c : Char) : Bool :=
  decide ((('a' ≤ c ∧ c ≤ 'z') ∨ ('A' ≤ c ∧ c ≤ 'Z'))
    ∨ c = Char.ofNat 39 ∨ c = '-') || isPySpace c

/-- Whether a string matches the anchored validation pattern: non-empty and
made only of allow-list characters. The `$` anchor accepting a final newline
adds nothing, since the newline is itself in the class. -/
def valid_name (s : String) : Bool :=
  (!decide (s = "")) && s.data.all allowChar

/-- Python's `str.strip()`: drop whitespace from both ends (ASCII model). -/
def pyStrip (s : String) : String :=
  ⟨(((s.data.dropWhile isPySpace).reverse).dropWhile isPySpace).reverse⟩

/-- The entity scan of `NameExtractor.extract_person_name` (app3.py lines
89-96): first PERSON-labelled entity whose stripped text matches the
validation pattern; its stripped text is returned, else the empty string. -/
def find_person : List Entity → String
  | [] => ""
  | e :: rest =>
    if e.label == "PERSON" && valid_name (pyStrip e.text) then pyStrip e.text
    else find_person rest

/-- `NameExtractor.extract_person_name` (app3.py lines 83-100). `ner` is the
entity-recognition capability (`self.nlp`), returning the entity list of the
processed document or raising (`Except.error`), in which case the `except`
clause logs and returns an empty result. The Python returns the dict
`{"client_name": name}`; the embedding returns the name string, with the
empty string standing for the absent result. -/
def extract_person_name (ner : String → Except Unit (List Entity))
    (text : String) : String :=
  match ner text with
  | .ok ents => find_person ents
  | .error _ => ""

/-- The extraction behaviour exactly as claim C4 words it, for comparison
with the implementation: the raw surface text of the first entity tagged
PERSON whose raw surface text matches the allow-list pattern, or the empty
string. This definition follows the claim, not the source. -/
def extract_person_name_claimed (ner : String → Except Unit (List Entity))
    (text : String) : String :=
  match ner text with
  | .ok ents =>
    match ents.find? (fun e => e.label == "PERSON" && valid_name e.text) with
    | some e => e.text
    | none => ""
  | .error _ => ""

/-- C4 (counterexample). The code strips the entity text before validating
and returns the stripped text (app3.py line 92), so for a PERSON entity whose
surface text is "John " (trailing space, which the allow-list pattern
accepts), the claim predicts the surface text "John " while the code returns
"John". -/
theorem extract_person_name_counterexample :
    extract_person_name (fun _ => Except.ok [Entity.mk "PERSON" "John "])
        "Schedule a meeting with John "
      ≠ extract_person_name_claimed (fun _ => Except.ok [Entity.mk "PERSON" "John "])
        "Schedule a meeting with John " := by
  decide

/-- C4 (amended: the entity's text is stripped of surrounding whitespace
before both the validation and the return). When entity recognition yields
the list `ents`, the extractor returns the stripped text of the first entity
tagged PERSON whose stripped text matches the allow-list pattern, and the
empty (absent) result when no entity qualifies; the embedding is a total
function, and a raising recognizer is likewise mapped to the absent result,
so no error propagates. -/
theorem extract_person_name_first_valid (ner : String → Except Unit (List Entity))
    (text : String) (ents : List Entity) (h : ner text = .ok ents) :
    extract_person_name ner text
      = match ents.find? (fun e => e.label == "PERSON" && valid_name (pyStrip e.text)) with
        | some e => pyStrip e.text
        | none => "" := by
  simp only [extract_person_name, h]
  clear h
  induction ents with
  | nil => rfl
  | cons e rest ih =>
    cases hc : (e.label == "PERSON" && valid_name (pyStrip e.text)) with
    | true =>
      rw [find_person, if_pos hc]
      simp [List.find?_cons, hc]
    | false =>
      rw [find_person, if_neg (by simp [hc])]
      rw [ih]
      simp [List.find?_cons, hc]

/-- C4 (witness). A PERSON entity with an invalid name ("John123") is
skipped, a non-person entity is skipped, and the first qualifying PERSON
entity ("Mary Jane") is returned. -/
theorem extract_person_name_first_valid_witness :
    extract_person_name
        (fun _ => Except.ok [Entity.mk "PERSON" "John123", Entity.mk "ORG" "Acme",
          Entity.mk "PERSON" "Mary Jane"])
        "Schedule John123 at Acme with Mary Jane"
      = match [Entity.mk "PERSON" "John123", Entity.mk "ORG" "Acme",
          Entity.mk "PERSON" "Mary Jane"].find?
            (fun e => e.label == "PERSON" && valid_name (pyStrip e.text)) with
        | some e => pyStrip e.text
        | none => "" :=
  extract_person_name_first_valid
    (fun _ => Except.ok [Entity.mk "PERSON" "John123", Entity.mk "ORG" "Acme",
      Entity.mk "PERSON" "Mary Jane"])
    "Schedule John123 at Acme with Mary Jane" _ rfl

/-- Outcome of one button-triggered run of the orchestrator. -/
inductive Outcome where
  | emptyPrompt
  | rejected
  | presented (response : String) (client_info : LookupResult) (client_name : String)
deriving DecidableEq

/-- The component calls the orchestrator can issue during one run. -/
inductive CallEvent where
  | extractCall
  | lookupCall
  | generateCall
deriving DecidableEq

/-- The request-handling portion of `main` (app3.py lines 228-257), from the
button press on: empty prompt warned about; name extracted; on an empty
extraction an error is surfaced (`st.error`) and the run stops before any
directory or completion call; otherwise lookup and generation run and the
result is presented. The second component records which of the three
component calls were issued, in order. -/
def main (fuzz : String → String → Nat) (ner : String → Except Unit (List Entity))
    (net : String → List Message → Nat → AttemptResult)
    (findResult : Except String (List ClientRecord)) (available : List String)
    (user_prompt : String) : Outcome × List CallEvent :=
  if user_prompt = "" then (.emptyPrompt, [])
  else
    let client_name := extract_person_name ner user_prompt
    if client_name = "" then (.rejected, [.extractCall])
    else
      let client_info := check_client fuzz findResult client_name
      let response := (generate_response net available user_prompt client_info).1
      (.presented response client_info client_name,
        [.extractCall, .lookupCall, .generateCall])

/-- C7. In every run with a non-empty prompt where name extraction comes back
empty, the orchestrator ends in the rejected state (a user-facing error) and
the run's call log contains neither a directory lookup nor a completion
call. -/
theorem main_rejects_without_calls (fuzz : String → String → Nat)
    (ner : String → Except Unit (List Entity))
    (net : String → List Message → Nat → AttemptResult)
    (findResult : Except String (List ClientRecord)) (available : List String)
    (user_prompt : String) (hp : user_prompt ≠ "")
    (hext : extract_person_name ner user_prompt = "") :
    (main fuzz ner net findResult available user_prompt).1 = Outcome.rejected
    ∧ CallEvent.lookupCall ∉ (main fuzz ner net findResult available user_prompt).2
    ∧ CallEvent.generateCall ∉ (main fuzz ner net findResult available user_prompt).2 := by
  have e : main fuzz ner net findResult available user_prompt
      = (Outcome.rejected, [CallEvent.extractCall]) := by
    simp [main, if_neg hp, hext]
  rw [e]
  exact ⟨rfl, by decide, by decide⟩

/-- C7 (witness). A prompt with no person entity: the run is rejected with
no lookup and no completion call. -/
theorem main_rejects_without_calls_witness :
    (main fuzzRatioImpl (fun _ => Except.ok []) (fun _ _ _ => AttemptResult.failure)
        (Except.ok []) [] "Schedule something tomorrow").1 = Outcome.rejected
    ∧ CallEvent.lookupCall ∉ (main fuzzRatioImpl (fun _ => Except.ok [])
        (fun _ _ _ => AttemptResult.failure) (Except.ok []) []
        "Schedule something tomorrow").2
    ∧ CallEvent.generateCall ∉ (main fuzzRatioImpl (fun _ => Except.ok [])
        (fun _ _ _ => AttemptResult.failure) (Except.ok []) []
        "Schedule something tomorrow").2 :=
  main_rejects_without_calls fuzzRatioImpl (fun _ => Except.ok [])
    (fun _ _ _ => AttemptResult.failure) (Except.ok []) []
    "Schedule something tomorrow" (by decide) rfl

end MeetingBot
